import Mathlib

/-!
Verification of the ai-whiteboard repository's specification claims.

Shallow embedding of the relevant backend and frontend code:
* `backend/src/config/redis.js` (`InMemoryCache.acquireLock` / `releaseLock`),
* `backend/src/middleware/auth.js` (`checkBoardAccess`, `requireRole`, `roleHierarchy`),
* `backend/src/config/supabase.js` (`createObject`, `getObjects`, `updateObject`,
  `deleteObject`),
* `backend/src/server.js` / `services/aiAgent.js` (`handleAICommand`, the
  tool-calling loop, `executeToolCall`),
* `frontend/src/store/whiteboardStore.js` (realtime handlers in `joinBoard`,
  `addObject`, `updateObject`, `deleteObject`).

JavaScript objects with a fixed shape become structures; free-form JS objects
(property bags, partial updates) become association lists `List (String × String)`;
the JS spread `{...o, ...updates}` becomes key-wise override of the bag.
External nondeterminism (model responses, provider failures, fresh ids, the
clock) is passed in explicitly; fallible paths return `Except`.
-/

namespace Whiteboard

/-! ### Locks — `backend/src/config/redis.js`, class `InMemoryCache`

`this.locks` is a JS `Map` from key strings to `{value, expiry}` records;
keys are unique.  We embed it as an association list with unique keys in use.
`Date.now()` and the random lock value are explicit parameters.  The
`setTimeout` auto-release is a background effect not reachable by the
sequential claims and is not part of the step functions; expiry is checked
at acquisition time exactly as the code does. -/

structure LockEntry where
  value : String
  expiry : Nat
deriving DecidableEq, Repr

abbrev Locks := List (String × LockEntry)

def lockKey (resource : String) : String := "lock:" ++ resource

def locksGet : Locks → String → Option LockEntry
  | [], _ => none
  | (k, e) :: rest, key => if k = key then some e else locksGet rest key

def locksSet : Locks → String → LockEntry → Locks
  | [], key, e => [(key, e)]
  | (k, e0) :: rest, key, e =>
      if k = key then (k, e) :: rest else (k, e0) :: locksSet rest key e

def locksDelete (locks : Locks) (key : String) : Locks :=
  locks.filter (fun p => p.1 ≠ key)

/-- `acquireLock(resource, ttlMs)`: return `null` when a live (unexpired) lock
exists, otherwise store a fresh `{value, expiry: now + ttl}` entry and return
the fresh value. -/
def acquireLock (locks : Locks) (resource : String) (ttlMs : Nat) (now : Nat)
    (lockValue : String) : Option String × Locks :=
  let key := lockKey resource
  match locksGet locks key with
  | some existingLock =>
      if now < existingLock.expiry then
        (none, locks)
      else
        (some lockValue, locksSet locks key { value := lockValue, expiry := now + ttlMs })
  | none =>
      (some lockValue, locksSet locks key { value := lockValue, expiry := now + ttlMs })

/-- `releaseLock(resource, lockValue)`: delete the entry and return `true`
only when the stored value matches. -/
def releaseLock (locks : Locks) (resource : String) (lockValue : String) :
    Locks × Bool :=
  let key := lockKey resource
  match locksGet locks key with
  | some lock =>
      if lock.value = lockValue then (locksDelete locks key, true) else (locks, false)
  | none => (locks, false)

/-! ### Authorization — `backend/src/middleware/auth.js` -/

structure Board where
  id : String
  ownerId : String
  isPublic : Bool
deriving DecidableEq, Repr

structure Collaborator where
  userId : String
  role : String
deriving DecidableEq, Repr

inductive AccessResult where
  | unauthorized401
  | notFound404
  | forbidden403
  | proceed (role : String)
deriving DecidableEq, Repr

/-- `checkBoardAccess(req, res, next)` as a function of the request's user id
(`req.user?.uid`), the fetched board row and the fetched collaborator rows. -/
def checkBoardAccess (userId : Option String) (board? : Option Board)
    (collaborators : List Collaborator) : AccessResult :=
  match userId with
  | none => .unauthorized401
  | some uid =>
      match board? with
      | none => .notFound404
      | some board =>
          if board.ownerId = uid then
            .proceed "owner"
          else
            match collaborators.find? (fun c => c.userId = uid) with
            | some collaboration => .proceed collaboration.role
            | none =>
                if board.isPublic then .proceed "viewer" else .forbidden403

/-- The `roleHierarchy` lookup table, with the code's `|| 0` fallback for
unknown role strings. -/
def roleHierarchy (role : String) : Nat :=
  if role = "viewer" then 1
  else if role = "editor" then 2
  else if role = "admin" then 3
  else if role = "owner" then 4
  else 0

inductive RoleDecision where
  | proceed
  | reject403
deriving DecidableEq, Repr

/-- `requireRole(minRole)` applied to `req.userRole`. -/
def requireRole (minRole : String) (userRole : String) : RoleDecision :=
  if roleHierarchy minRole ≤ roleHierarchy userRole then .proceed else .reject403

/-- The four role values stored in the database
(`CHECK (role IN ('owner','admin','editor','viewer'))`). -/
inductive Role where
  | viewer
  | editor
  | admin
  | owner
deriving DecidableEq, Repr

def Role.toStr : Role → String
  | .viewer => "viewer"
  | .editor => "editor"
  | .admin => "admin"
  | .owner => "owner"

/-- The spec's total order viewer < editor < admin < owner, written out as the
six strictly-below pairs. -/
def Role.below : Role → Role → Bool
  | .viewer, .editor => true
  | .viewer, .admin => true
  | .viewer, .owner => true
  | .editor, .admin => true
  | .editor, .owner => true
  | .admin, .owner => true
  | _, _ => false

/-! ### Client store — `frontend/src/store/whiteboardStore.js`

A store object is its id plus a free-form bag of remaining fields
(`type`, `position`, `properties`, ... from `mapObject`).  The JS spread
`{...o, ...updates}` is key-wise override of the bag. -/

abbrev Attrs := List (String × String)

structure Obj where
  id : String
  attrs : Attrs
deriving DecidableEq, Repr

structure Store where
  objects : List Obj
  selectedObjectIds : List String
deriving DecidableEq, Repr

def setAttr : Attrs → String → String → Attrs
  | [], k, v => [(k, v)]
  | (k0, v0) :: rest, k, v =>
      if k0 = k then (k0, v) :: rest else (k0, v0) :: setAttr rest k v

/-- `{...base, ...updates}` on the non-id fields. -/
def mergeAttrs (base updates : Attrs) : Attrs :=
  updates.foldl (fun acc kv => setAttr acc kv.1 kv.2) base

def mergeObj (o : Obj) (updates : Attrs) : Obj :=
  { o with attrs := mergeAttrs o.attrs updates }

/-- The remote events delivered to a subscribed client: the three
`postgres_changes` events (INSERT/UPDATE carry the authoritative full row,
DELETE carries the old row's id) and the three explicit broadcast events
(`object_created` carries the full object, `object_updated` a partial
updates bag, `object_deleted` an id). -/
inductive RemoteEvent where
  | pgInsert (obj : Obj)
  | pgUpdate (obj : Obj)
  | pgDelete (id : String)
  | bCreated (obj : Obj)
  | bUpdated (objectId : String) (updates : Attrs)
  | bDeleted (objectId : String)
deriving DecidableEq, Repr

/-- The six handlers installed by `joinBoard` on the realtime channel,
as one step function on the store. -/
def applyRemote (s : Store) : RemoteEvent → Store
  | .pgInsert newObj =>
      if s.objects.any (fun o => o.id = newObj.id) then s
      else { s with objects := s.objects ++ [newObj] }
  | .pgUpdate updated =>
      { s with objects := s.objects.map (fun o => if o.id = updated.id then updated else o) }
  | .pgDelete deletedId =>
      { objects := s.objects.filter (fun o => o.id ≠ deletedId),
        selectedObjectIds := s.selectedObjectIds.filter (fun i => i ≠ deletedId) }
  | .bCreated obj =>
      if s.objects.any (fun o => o.id = obj.id) then s
      else { s with objects := s.objects ++ [obj] }
  | .bUpdated objectId updates =>
      { s with objects := s.objects.map (fun o => if o.id = objectId then mergeObj o updates else o) }
  | .bDeleted objectId =>
      { objects := s.objects.filter (fun o => o.id ≠ objectId),
        selectedObjectIds := s.selectedObjectIds.filter (fun i => i ≠ objectId) }

/-- Relay broadcasts a client sends after its own successful writes. -/
inductive Broadcast where
  | created (obj : Obj)
  | updated (objectId : String) (updates : Attrs)
  | deleted (objectId : String)
deriving DecidableEq, Repr

/-- `addObject`: awaits the provider insert; on error only logs and returns
(the store is untouched); on success appends the returned row (deduplicated
against an already-arrived realtime INSERT) and broadcasts.  The provider
outcome is the explicit `res` argument; `connected` is the channel state
guarding the broadcast. -/
def addObject (s : Store) (res : Except String Obj) (connected : Bool) :
    Store × List Broadcast :=
  match res with
  | .error _ => (s, [])
  | .ok mapped =>
      let s' :=
        if s.objects.any (fun o => o.id = mapped.id) then s
        else { s with objects := s.objects ++ [mapped] }
      (s', if connected then [.created mapped] else [])

/-- `updateObject`: optimistic merge first, then the provider write; on error
only logs (the optimistic state stays); on success additionally broadcasts. -/
def updateObject (s : Store) (objectId : String) (updates : Attrs)
    (res : Except String Unit) (connected : Bool) : Store × List Broadcast :=
  let s' := { s with
    objects := s.objects.map (fun o => if o.id = objectId then mergeObj o updates else o) }
  match res with
  | .error _ => (s', [])
  | .ok _ => (s', if connected then [.updated objectId updates] else [])

/-- `deleteObject`: optimistic removal first, then the provider write; on
error only logs; on success additionally broadcasts. -/
def deleteObject (s : Store) (objectId : String) (res : Except String Unit)
    (connected : Bool) : Store × List Broadcast :=
  let s' : Store :=
    { objects := s.objects.filter (fun o => o.id ≠ objectId),
      selectedObjectIds := s.selectedObjectIds.filter (fun i => i ≠ objectId) }
  match res with
  | .error _ => (s', [])
  | .ok _ => (s', if connected then [.deleted objectId] else [])

/-! ### Persistence rows — `backend/src/config/supabase.js`

A `board_objects` row.  `position`/`properties` are free-form JSON and are
bundled into the `attrs` bag; `created_at` and the generated `id` come from
the database and are explicit parameters of `createObject`. -/

structure Row where
  id : String
  boardId : String
  objectType : String
  layerIndex : Nat
  createdBy : String
  createdAt : Nat
  attrs : Attrs
deriving DecidableEq, Repr

abbrev Db := List Row

/-- `createObject(objectData)`: insert the row and return the mapped row. -/
def createObject (db : Db) (boardId objectType : String) (attrs : Attrs)
    (layerIndex : Nat) (createdBy : String) (freshId : String) (createdAt : Nat) :
    Row × Db :=
  let row : Row :=
    { id := freshId, boardId := boardId, objectType := objectType,
      layerIndex := layerIndex, createdBy := createdBy, createdAt := createdAt,
      attrs := attrs }
  (row, db ++ [row])

/-- The ordering used by `getObjects`: `layer_index` ascending, then
`created_at` ascending. -/
def rowLe (a b : Row) : Bool :=
  decide (a.layerIndex < b.layerIndex) ||
    (decide (a.layerIndex = b.layerIndex) && decide (a.createdAt ≤ b.createdAt))

def insertSorted (r : Row) : List Row → List Row
  | [] => [r]
  | x :: xs => if rowLe r x then r :: x :: xs else x :: insertSorted r xs

def sortRows (rows : List Row) : List Row :=
  rows.foldr insertSorted []

/-- `getObjects(boardId)`: all rows of the board, ordered by layer index then
creation time. -/
def getObjects (db : Db) (boardId : String) : List Row :=
  sortRows (db.filter (fun row => row.boardId = boardId))

/-- `updateObject(objectId, updates)` on the rows table. -/
def dbUpdateObject (db : Db) (objectId : String) (updates : Attrs) : Db :=
  db.map (fun row => if row.id = objectId then { row with attrs := mergeAttrs row.attrs updates } else row)

/-- `deleteObject(objectId)` on the rows table. -/
def dbDeleteObject (db : Db) (objectId : String) : Db :=
  db.filter (fun row => row.id ≠ objectId)

/-! ### AI command agent — `backend/src/services/aiAgent.js` (`handleAICommand`,
the multi-turn tool loop, `executeToolCall`, `createShape`)

`executeToolCall`'s switch funnels every `create_*` tool into `createShape`
(one insert plus one `object_created` broadcast); `update_object` and
`delete_object` are one write plus one broadcast; `get_board_state` is a read;
an unknown tool name throws.  A provider error on a write re-throws out of
`executeToolCall` (the `if (error) throw error` in the supabase wrappers);
that environment choice is the `dbFailure` case.  The database-generated id
and timestamp of a created shape are environment data carried on the call. -/

inductive ToolCall where
  | createShape (objectType : String) (attrs : Attrs) (freshId : String) (createdAt : Nat)
  | updateTool (objectId : String) (updates : Attrs)
  | deleteTool (objectId : String)
  | getState
  | unknownTool (name : String)
  | dbFailure (msg : String)
deriving DecidableEq, Repr

def executeToolCall (db : Db) (boardId userId : String) :
    ToolCall → Except String (Db × List Broadcast)
  | .createShape objectType attrs freshId createdAt =>
      let (row, db') := createObject db boardId objectType attrs 0 userId freshId createdAt
      .ok (db', [.created { id := row.id, attrs := row.attrs }])
  | .updateTool objectId updates =>
      .ok (dbUpdateObject db objectId updates, [.updated objectId updates])
  | .deleteTool objectId =>
      .ok (dbDeleteObject db objectId, [.deleted objectId])
  | .getState => .ok (db, [])
  | .unknownTool name => .error ("Unknown tool: " ++ name)
  | .dbFailure msg => .error msg

/-- The inner `for (const block of toolUseBlocks)` loop of one round: execute
the calls left to right; a throw aborts the round, keeping the writes made so
far (the error carries the database as it stands at the throw). -/
def execCalls (boardId userId : String) : Db → List ToolCall → Except (String × Db) Db
  | db, [] => .ok db
  | db, c :: cs =>
      match executeToolCall db boardId userId c with
      | .error e => .error (e, db)
      | .ok (db', _) => execCalls boardId userId db' cs

def MAX_TOOL_ITERATIONS : Nat := 10

/-- One model invocation's result, as the loop consumes it: the optional text
block, the `tool_use` blocks, and `stop_reason`. -/
structure ModelResponse where
  text : Option String
  toolUses : List ToolCall
  stopReason : String

/-- The `for (let i = 0; i < MAX_TOOL_ITERATIONS; i++)` loop.  The model is an
oracle giving the response to the `i`-th invocation.  Returns either
`(lastText, executed calls, db, number of model invocations)` or, when a tool
throws, the error with the database at the throw point and the invocation
count.  Breaks exactly as the source: before executing when there are no tool
uses or `stop_reason` is `end_turn`, after executing when `stop_reason` is not
`tool_use`. -/
def aiLoopAux (oracle : Nat → ModelResponse) (boardId userId : String) :
    Nat → Nat → Db → String → List ToolCall →
    Except (String × Db × Nat) (String × List ToolCall × Db × Nat)
  | _, 0, db, lastText, actions => .ok (lastText, actions, db, 0)
  | i, fuel + 1, db, lastText, actions =>
      let r := oracle i
      let lastText' := r.text.getD lastText
      if r.toolUses.isEmpty || r.stopReason = "end_turn" then
        .ok (lastText', actions, db, 1)
      else
        match execCalls boardId userId db r.toolUses with
        | .error (e, db') => .error (e, db', 1)
        | .ok db' =>
            let actions' := actions ++ r.toolUses
            if r.stopReason ≠ "tool_use" then
              .ok (lastText', actions', db', 1)
            else
              match aiLoopAux oracle boardId userId (i + 1) fuel db' lastText' actions' with
              | .error (e, db'', n) => .error (e, db'', n + 1)
              | .ok (t, a, db'', n) => .ok (t, a, db'', n + 1)

def aiLoop (oracle : Nat → ModelResponse) (boardId userId : String) (db : Db) :
    Except (String × Db × Nat) (String × List ToolCall × Db × Nat) :=
  aiLoopAux oracle boardId userId 0 MAX_TOOL_ITERATIONS db "" []

/-- Number of model invocations an `aiLoopAux` outcome reports. -/
def callCount : Except (String × Db × Nat) (String × List ToolCall × Db × Nat) → Nat
  | .error (_, _, n) => n
  | .ok (_, _, _, n) => n

/-- Database state an `aiLoopAux` outcome leaves behind. -/
def loopDb : Except (String × Db × Nat) (String × List ToolCall × Db × Nat) → Db
  | .error (_, db, _) => db
  | .ok (_, _, db, _) => db

structure AIResult where
  success : Bool
  message : String
  actions : List ToolCall
deriving DecidableEq, Repr

inductive LockOp where
  | acquireOk (resource value : String)
  | acquireFail (resource : String)
  | release (resource value : String)
deriving DecidableEq, Repr

/-- `handleAICommand({boardId, userId, command, io})`.  `now` and `fresh` feed
`acquireLock`; `logWrite` is the outcome of the `createAICommand` audit insert
(a throwing log write is caught by the outer catch, after the `finally`
releases the lock).  Returns the user-visible result, the object database,
the lock map and the trace of lock operations performed. -/
def handleAICommand (locks : Locks) (now : Nat) (fresh : String)
    (boardId userId : String) (oracle : Nat → ModelResponse)
    (logWrite : Except String Unit) (db : Db) :
    AIResult × Db × Locks × List LockOp :=
  match acquireLock locks boardId 30000 now fresh with
  | (none, locks') =>
      ({ success := false,
         message := "Another AI operation is in progress. Please wait.",
         actions := [] },
       db, locks', [.acquireFail boardId])
  | (some lockValue, locks') =>
      match aiLoop oracle boardId userId db with
      | .error (e, db', _) =>
          let (locks'', _) := releaseLock locks' boardId lockValue
          ({ success := false, message := e, actions := [] }, db', locks'',
           [.acquireOk boardId lockValue, .release boardId lockValue])
      | .ok (lastText, actions, db', _) =>
          let (locks'', _) := releaseLock locks' boardId lockValue
          match logWrite with
          | .error e =>
              ({ success := false, message := e, actions := [] }, db', locks'',
               [.acquireOk boardId lockValue, .release boardId lockValue])
          | .ok _ =>
              ({ success := true,
                 message := if lastText = "" then "Done! Objects created successfully." else lastText,
                 actions := actions },
               db', locks'',
               [.acquireOk boardId lockValue, .release boardId lockValue])

/-- The database reached after `k` successful, loop-continuing rounds starting
at invocation index `i`: each of them must have tool uses, not stop with
`end_turn`, execute without a throw, and report `stop_reason` `tool_use`.
Iterates the same `execCalls` the loop runs. -/
def execRoundsChain (oracle : Nat → ModelResponse) (boardId userId : String) :
    Nat → Nat → Db → Option Db
  | _, 0, db => some db
  | i, k + 1, db =>
      let r := oracle i
      if r.toolUses.isEmpty || r.stopReason = "end_turn" then none
      else
        match execCalls boardId userId db r.toolUses with
        | .error _ => none
        | .ok db' =>
            if r.stopReason ≠ "tool_use" then none
            else execRoundsChain oracle boardId userId (i + 1) k db'

end Whiteboard

namespace Whiteboard

/-- locksGet after locksSet at the same key finds the new entry. -/
theorem locksGet_locksSet (locks : Locks) (key : String) (e : LockEntry) :
    locksGet (locksSet locks key e) key = some e := by
  induction locks with
  | nil => simp [locksSet, locksGet]
  | cons p rest ih =>
      by_cases h : p.1 = key
      · simp [locksSet, locksGet, h]
      · simp [locksSet, locksGet, h, ih]

/-- C1: the claim says a public board grants an anonymous caller implicit
viewer access, but `checkBoardAccess` returns 401 for any request without an
authenticated user before it ever consults `board.isPublic`: on a public
board with no collaborators an anonymous request is rejected with 401, not
granted role viewer. -/
theorem anonymous_public_request_gets_401 :
    checkBoardAccess none (some { id := "board-1", ownerId := "alice", isPublic := true }) [] =
      AccessResult.unauthorized401 ∧
    checkBoardAccess none (some { id := "board-1", ownerId := "alice", isPublic := true }) [] ≠
      AccessResult.proceed "viewer" := by
  constructor
  · rfl
  · decide

/-- C7 counterexample: `addObject` is not optimistic.  On a provider write
failure the local store is returned unchanged (here: still empty), not in the
optimistically-mutated state containing the new object. -/
theorem add_on_provider_failure_leaves_store_unchanged :
    (addObject { objects := [], selectedObjectIds := [] } (Except.error "insert failed") true).1 =
      { objects := [], selectedObjectIds := [] } ∧
    (addObject { objects := [], selectedObjectIds := [] } (Except.error "insert failed") true).1 ≠
      { objects := [{ id := "o1", attrs := [] }], selectedObjectIds := [] } := by
  constructor
  · rfl
  · decide

/-- C7 amended: `updateObject` and `deleteObject` apply the mutation
optimistically and on provider failure only log — the store stays in the
mutated state and no broadcast is sent; `addObject` applies the object to the
store only after the provider write succeeds, so on failure the store is
unchanged, and on success the returned row is appended unless its id is
already present. -/
theorem store_mutations_optimistic_update_delete_but_not_add
    (s : Store) (objectId err : String) (updates : Attrs) (obj : Obj) (connected : Bool) :
    (updateObject s objectId updates (Except.error err) connected).1 =
      { s with objects :=
          s.objects.map (fun o => if o.id = objectId then mergeObj o updates else o) } ∧
    (updateObject s objectId updates (Except.error err) connected).2 = [] ∧
    (deleteObject s objectId (Except.error err) connected).1 =
      { objects := s.objects.filter (fun o => o.id ≠ objectId),
        selectedObjectIds := s.selectedObjectIds.filter (fun i => i ≠ objectId) } ∧
    (deleteObject s objectId (Except.error err) connected).2 = [] ∧
    addObject s (Except.error err) connected = (s, []) ∧
    (addObject s (Except.ok obj) connected).1 =
      (if s.objects.any (fun o => o.id = obj.id) then s
       else { s with objects := s.objects ++ [obj] }) := by
  refine ⟨rfl, rfl, rfl, rfl, rfl, rfl⟩

/-- C8: after the access check assigned one of the four stored roles, the
`requireRole` gate rejects with 403 exactly when the caller's role is strictly
below the endpoint's minimum role in the order
viewer < editor < admin < owner, and proceeds otherwise. -/
theorem require_role_rejects_iff_below (r m : Role) :
    (requireRole m.toStr r.toStr = RoleDecision.reject403 ↔ Role.below r m = true) ∧
    (requireRole m.toStr r.toStr = RoleDecision.proceed ↔ Role.below r m = false) := by
  cases r <;> cases m <;> decide

/-- C2: an incoming remote create (either via the postgres INSERT feed or the
`object_created` broadcast) whose object id is already present leaves the
store unchanged, while incoming updates and deletes (both paths) are applied
to every state unconditionally — the full stated transformation, with no
version comparison or conflict check. -/
theorem remote_create_dedup_update_delete_unconditional
    (s : Store) (obj full : Obj) (objectId : String) (updates : Attrs)
    (hdup : obj.id ∈ s.objects.map (fun o => o.id)) :
    applyRemote s (RemoteEvent.pgInsert obj) = s ∧
    applyRemote s (RemoteEvent.bCreated obj) = s ∧
    applyRemote s (RemoteEvent.pgUpdate full) =
      { s with objects := s.objects.map (fun o => if o.id = full.id then full else o) } ∧
    applyRemote s (RemoteEvent.bUpdated objectId updates) =
      { s with objects :=
          s.objects.map (fun o => if o.id = objectId then mergeObj o updates else o) } ∧
    applyRemote s (RemoteEvent.pgDelete objectId) =
      { objects := s.objects.filter (fun o => o.id ≠ objectId),
        selectedObjectIds := s.selectedObjectIds.filter (fun i => i ≠ objectId) } ∧
    applyRemote s (RemoteEvent.bDeleted objectId) =
      { objects := s.objects.filter (fun o => o.id ≠ objectId),
        selectedObjectIds := s.selectedObjectIds.filter (fun i => i ≠ objectId) } := by
  have hany : s.objects.any (fun o => o.id = obj.id) = true := by
    simp only [List.mem_map] at hdup
    obtain ⟨o, ho, hid⟩ := hdup
    exact List.any_eq_true.mpr ⟨o, ho, by simp [hid]⟩
  refine ⟨?_, ?_, rfl, rfl, rfl, rfl⟩ <;> simp [applyRemote, hany]

/-- Witness for the dedup hypothesis of the C2 theorem: a store already
holding id `o1` drops an incoming create for `o1`. -/
theorem remote_create_dedup_witness :
    applyRemote { objects := [{ id := "o1", attrs := [] }], selectedObjectIds := [] }
        (RemoteEvent.pgInsert { id := "o1", attrs := [("type", "circle")] }) =
      { objects := [{ id := "o1", attrs := [] }], selectedObjectIds := [] } :=
  (remote_create_dedup_update_delete_unconditional
    { objects := [{ id := "o1", attrs := [] }], selectedObjectIds := [] }
    { id := "o1", attrs := [("type", "circle")] }
    { id := "x", attrs := [] } "y" [] (by decide)).1

/-- C10: `releaseLock` deletes the lock and reports `true` exactly when an
entry for the resource exists and stores the caller's value; in every other
case the lock map is returned unchanged with `false`.  Consequently a holder
whose expired lock was re-acquired under a different value can never release
the new holder's lock (third conjunct). -/
theorem release_lock_only_with_matching_value (locks : Locks) (resource lockValue : String) :
    ((releaseLock locks resource lockValue).2 = true ↔
      ∃ e, locksGet locks (lockKey resource) = some e ∧ e.value = lockValue) ∧
    (releaseLock locks resource lockValue).1 =
      (if (releaseLock locks resource lockValue).2 then
        locksDelete locks (lockKey resource)
       else locks) ∧
    (∀ e, locksGet locks (lockKey resource) = some e → e.value ≠ lockValue →
      releaseLock locks resource lockValue = (locks, false)) := by
  cases hg : locksGet locks (lockKey resource) with
  | none => simp [releaseLock, hg]
  | some lock =>
      by_cases hv : lock.value = lockValue
      · simp [releaseLock, hg, hv]
      · simp [releaseLock, hg, hv]

/-- Witness for the C10 theorem: with a held lock stored under value `vB`, a
release attempt with the stale value `vA` fails and leaves the map unchanged,
while a release with `vB` succeeds and deletes the entry. -/
theorem release_lock_only_with_matching_value_witness :
    releaseLock [(lockKey "b1", { value := "vB", expiry := 100 })] "b1" "vA" =
      ([(lockKey "b1", { value := "vB", expiry := 100 })], false) :=
  (release_lock_only_with_matching_value
      [(lockKey "b1", { value := "vB", expiry := 100 })] "b1" "vA").2.2
    { value := "vB", expiry := 100 } (by decide) (by decide)

/-- Membership is preserved by sorted insertion. -/
theorem mem_insertSorted (x r : Row) (l : List Row) :
    x ∈ insertSorted r l ↔ x = r ∨ x ∈ l := by
  induction l with
  | nil => simp [insertSorted]
  | cons y ys ih =>
      by_cases h : rowLe r y
      · simp [insertSorted, h]
      · simp [insertSorted, h, ih]
        tauto

/-- Membership is preserved by `sortRows`. -/
theorem mem_sortRows (x : Row) (l : List Row) : x ∈ sortRows l ↔ x ∈ l := by
  induction l with
  | nil => simp [sortRows]
  | cons y ys ih =>
      simp only [sortRows, List.foldr_cons] at ih ⊢
      rw [mem_insertSorted]
      simp [ih]

/-- C9: the row returned by `createObject` carries the created board's id, so
its id appears in the listing `getObjects` subsequently returns for that
board (the payload of `GET /:boardId/objects`). -/
theorem created_object_id_in_subsequent_listing
    (db : Db) (boardId objectType : String) (attrs : Attrs) (layerIndex : Nat)
    (createdBy freshId : String) (createdAt : Nat) :
    ((createObject db boardId objectType attrs layerIndex createdBy freshId createdAt).1).id ∈
      (getObjects
        (createObject db boardId objectType attrs layerIndex createdBy freshId createdAt).2
        boardId).map (fun row => row.id) := by
  apply List.mem_map.mpr
  refine ⟨(createObject db boardId objectType attrs layerIndex createdBy freshId createdAt).1,
    ?_, rfl⟩
  unfold getObjects
  rw [mem_sortRows]
  apply List.mem_filter.mpr
  refine ⟨?_, by simp [createObject]⟩
  simp [createObject]

/-- C3: while a live (unexpired) lock is held on a board, `acquireLock`
returns `null` and leaves the lock map unchanged, and `handleAICommand` on
that board fails immediately: it returns `success := false` with the
"Another AI operation is in progress" message and leaves the database
untouched — no blocking, no queuing. -/
theorem held_live_lock_makes_second_command_fail
    (locks : Locks) (now : Nat) (fresh boardId userId : String)
    (oracle : Nat → ModelResponse) (logWrite : Except String Unit) (db : Db)
    (en : LockEntry)
    (hheld : locksGet locks (lockKey boardId) = some en)
    (hlive : now < en.expiry) :
    acquireLock locks boardId 30000 now fresh = (none, locks) ∧
    (handleAICommand locks now fresh boardId userId oracle logWrite db).1 =
      { success := false,
        message := "Another AI operation is in progress. Please wait.",
        actions := [] } ∧
    (handleAICommand locks now fresh boardId userId oracle logWrite db).2.1 = db := by
  have hacq : acquireLock locks boardId 30000 now fresh = (none, locks) := by
    simp [acquireLock, hheld, hlive]
  refine ⟨hacq, ?_, ?_⟩ <;> simp [handleAICommand, hacq]

/-- Witness for the C3 theorem: with a lock on board `b1` that expires at 50,
a second command at time 10 fails immediately with the busy message. -/
theorem held_live_lock_makes_second_command_fail_witness :
    acquireLock [(lockKey "b1", { value := "v0", expiry := 50 })] "b1" 30000 10 "v1" =
      (none, [(lockKey "b1", { value := "v0", expiry := 50 })]) ∧
    (handleAICommand [(lockKey "b1", { value := "v0", expiry := 50 })] 10 "v1" "b1" "u1"
        (fun _ => { text := none, toolUses := [], stopReason := "end_turn" })
        (Except.ok ()) []).1 =
      { success := false,
        message := "Another AI operation is in progress. Please wait.",
        actions := [] } ∧
    (handleAICommand [(lockKey "b1", { value := "v0", expiry := 50 })] 10 "v1" "b1" "u1"
        (fun _ => { text := none, toolUses := [], stopReason := "end_turn" })
        (Except.ok ()) []).2.1 = [] :=
  held_live_lock_makes_second_command_fail
    [(lockKey "b1", { value := "v0", expiry := 50 })] 10 "v1" "b1" "u1"
    (fun _ => { text := none, toolUses := [], stopReason := "end_turn" })
    (Except.ok ()) [] { value := "v0", expiry := 50 } (by decide) (by decide)

/-- A successful acquisition hands out the fresh value and stores it. -/
theorem acquireLock_success_shape
    (locks : Locks) (boardId : String) (ttl now : Nat) (fresh v : String) (locks' : Locks)
    (hacq : acquireLock locks boardId ttl now fresh = (some v, locks')) :
    v = fresh ∧
    locks' = locksSet locks (lockKey boardId) { value := fresh, expiry := now + ttl } := by
  simp only [acquireLock] at hacq
  cases hg : locksGet locks (lockKey boardId) with
  | none =>
      rw [hg] at hacq
      simp at hacq
      exact ⟨hacq.1.symm, hacq.2.symm⟩
  | some e =>
      rw [hg] at hacq
      by_cases hl : now < e.expiry
      · simp [hl] at hacq
      · simp [hl] at hacq
        exact ⟨hacq.1.symm, hacq.2.symm⟩

/-- C4: whenever the per-board lock was acquired, `handleAICommand` performs
the matching `releaseLock` before returning on every path — whether the tool
loop succeeds, the tool loop or a database write inside it throws, or the
audit-log write throws — and the lock entry is gone from the lock map the
handler returns. -/
theorem ai_lock_released_on_every_path
    (locks : Locks) (now : Nat) (fresh boardId userId : String)
    (oracle : Nat → ModelResponse) (logWrite : Except String Unit) (db : Db)
    (v : String) (locks' : Locks)
    (hacq : acquireLock locks boardId 30000 now fresh = (some v, locks')) :
    LockOp.release boardId v ∈
      (handleAICommand locks now fresh boardId userId oracle logWrite db).2.2.2 ∧
    (handleAICommand locks now fresh boardId userId oracle logWrite db).2.2.1 =
      locksDelete locks' (lockKey boardId) := by
  obtain ⟨hv, hl'⟩ := acquireLock_success_shape locks boardId 30000 now fresh v locks' hacq
  have hget : locksGet locks' (lockKey boardId) = some { value := v, expiry := now + 30000 } := by
    rw [hl', hv]
    exact locksGet_locksSet locks (lockKey boardId) _
  have hrel : releaseLock locks' boardId v = (locksDelete locks' (lockKey boardId), true) := by
    simp [releaseLock, hget]
  unfold handleAICommand
  rw [hacq]
  cases haiL : aiLoop oracle boardId userId db with
  | error err =>
      obtain ⟨e1, db1, n1⟩ := err
      simp [hrel]
  | ok out =>
      obtain ⟨t, a, db1, n1⟩ := out
      cases logWrite with
      | error e1 => simp [hrel]
      | ok u => simp [hrel]

/-- Witness for the C4 theorem: acquiring on an empty lock map and running a
command that ends immediately still releases, leaving the lock map without
the entry. -/
theorem ai_lock_released_on_every_path_witness :
    LockOp.release "b1" "v1" ∈
      (handleAICommand [] 0 "v1" "b1" "u1"
        (fun _ => { text := none, toolUses := [], stopReason := "end_turn" })
        (Except.ok ()) []).2.2.2 ∧
    (handleAICommand [] 0 "v1" "b1" "u1"
        (fun _ => { text := none, toolUses := [], stopReason := "end_turn" })
        (Except.ok ()) []).2.2.1 =
      locksDelete [(lockKey "b1", { value := "v1", expiry := 30000 })] (lockKey "b1") :=
  ai_lock_released_on_every_path [] 0 "v1" "b1" "u1"
    (fun _ => { text := none, toolUses := [], stopReason := "end_turn" })
    (Except.ok ()) [] "v1" [(lockKey "b1", { value := "v1", expiry := 30000 })] (by decide)

/-- Each unit of fuel pays for at most one model invocation. -/
theorem aiLoopAux_callCount_le (oracle : Nat → ModelResponse) (boardId userId : String) :
    ∀ fuel i db lastText actions,
      callCount (aiLoopAux oracle boardId userId i fuel db lastText actions) ≤ fuel := by
  intro fuel
  induction fuel with
  | zero =>
      intro i db t a
      simp [aiLoopAux, callCount]
  | succ n ih =>
      intro i db t a
      unfold aiLoopAux
      dsimp only
      by_cases hguard :
          ((oracle i).toolUses.isEmpty || decide ((oracle i).stopReason = "end_turn")) = true
      · rw [if_pos hguard]
        simp [callCount]
      · rw [if_neg hguard]
        cases hexec : execCalls boardId userId db (oracle i).toolUses with
        | error p =>
            obtain ⟨e, db1⟩ := p
            simp [callCount]
        | ok db1 =>
            dsimp only
            by_cases hstop : (oracle i).stopReason ≠ "tool_use"
            · rw [if_pos hstop]
              simp [callCount]
            · rw [if_neg hstop]
              cases hrec : aiLoopAux oracle boardId userId (i + 1) n db1
                  ((oracle i).text.getD t) (a ++ (oracle i).toolUses) with
              | error p =>
                  obtain ⟨e, db2, m⟩ := p
                  have h := ih (i + 1) db1 ((oracle i).text.getD t) (a ++ (oracle i).toolUses)
                  rw [hrec] at h
                  simp [callCount] at h ⊢
                  omega
              | ok q =>
                  obtain ⟨t2, a2, db2, m⟩ := q
                  have h := ih (i + 1) db1 ((oracle i).text.getD t) (a ++ (oracle i).toolUses)
                  rw [hrec] at h
                  simp [callCount] at h ⊢
                  omega

/-- After `k` successful, continuing rounds, a throwing round surfaces as the
loop's error, carrying the database exactly as it stood at the throw. -/
theorem aiLoopAux_error_after_chain (oracle : Nat → ModelResponse) (boardId userId : String) :
    ∀ k i fuel db dbk e db' lastText actions,
      execRoundsChain oracle boardId userId i k db = some dbk →
      ((oracle (i + k)).toolUses.isEmpty ||
        decide ((oracle (i + k)).stopReason = "end_turn")) = false →
      execCalls boardId userId dbk (oracle (i + k)).toolUses = Except.error (e, db') →
      k + 1 ≤ fuel →
      aiLoopAux oracle boardId userId i fuel db lastText actions =
        Except.error (e, db', k + 1) := by
  intro k
  induction k with
  | zero =>
      intro i fuel db dbk e db' t a hchain hguard hfail hfuel
      simp only [Nat.add_zero] at hguard hfail
      simp only [execRoundsChain, Option.some.injEq] at hchain
      subst hchain
      cases fuel with
      | zero => omega
      | succ f =>
          unfold aiLoopAux
          dsimp only
          rw [if_neg (by simp [hguard])]
          rw [hfail]
  | succ kk ih =>
      intro i fuel db dbk e db' t a hchain hguard hfail hfuel
      unfold execRoundsChain at hchain
      dsimp only at hchain
      by_cases hg : ((oracle i).toolUses.isEmpty ||
          decide ((oracle i).stopReason = "end_turn")) = true
      · rw [if_pos hg] at hchain
        cases hchain
      · rw [if_neg hg] at hchain
        cases hexec : execCalls boardId userId db (oracle i).toolUses with
        | error p =>
            rw [hexec] at hchain
            cases hchain
        | ok db1 =>
            rw [hexec] at hchain
            dsimp only at hchain
            by_cases hstop : (oracle i).stopReason ≠ "tool_use"
            · rw [if_pos hstop] at hchain
              cases hchain
            · rw [if_neg hstop] at hchain
              cases fuel with
              | zero => omega
              | succ f =>
                  have hshift : i + 1 + kk = i + (kk + 1) := by omega
                  have hrec := ih (i + 1) f db1 dbk e db'
                    ((oracle i).text.getD t) (a ++ (oracle i).toolUses) hchain
                    (by rw [hshift]; exact hguard)
                    (by rw [hshift]; exact hfail)
                    (by omega)
                  unfold aiLoopAux
                  dsimp only
                  rw [if_neg hg, hexec]
                  dsimp only
                  rw [if_neg hstop, hrec]

/-- C6: when rounds `1..k` of the tool loop each executed their database
writes successfully and round `k+1` throws (a failing provider write or an
unknown tool), the loop and the surrounding `handleAICommand` report failure
with the database exactly as it stood at the throw — the state `db'` that
extends the post-round-`k` state `dbk` — so every write of the earlier rounds
stays committed; there is no rollback or compensation. -/
theorem ai_no_rollback_when_later_round_fails
    (locks : Locks) (now : Nat) (fresh boardId userId : String)
    (oracle : Nat → ModelResponse) (logWrite : Except String Unit)
    (db dbk db' : Db) (k : Nat) (e v : String) (locks' : Locks)
    (hk : k + 1 ≤ MAX_TOOL_ITERATIONS)
    (hchain : execRoundsChain oracle boardId userId 0 k db = some dbk)
    (hne : (oracle k).toolUses.isEmpty = false)
    (hstop : ¬(oracle k).stopReason = "end_turn")
    (hfail : execCalls boardId userId dbk (oracle k).toolUses = Except.error (e, db'))
    (hacq : acquireLock locks boardId 30000 now fresh = (some v, locks')) :
    aiLoop oracle boardId userId db = Except.error (e, db', k + 1) ∧
    (handleAICommand locks now fresh boardId userId oracle logWrite db).1 =
      { success := false, message := e, actions := [] } ∧
    (handleAICommand locks now fresh boardId userId oracle logWrite db).2.1 = db' := by
  have hguard : ((oracle (0 + k)).toolUses.isEmpty ||
      decide ((oracle (0 + k)).stopReason = "end_turn")) = false := by
    simp only [Nat.zero_add]
    simp [hne, hstop]
  have hloop : aiLoop oracle boardId userId db = Except.error (e, db', k + 1) := by
    unfold aiLoop
    exact aiLoopAux_error_after_chain oracle boardId userId k 0 MAX_TOOL_ITERATIONS db dbk e db'
      "" [] hchain hguard (by simpa using hfail) hk
  refine ⟨hloop, ?_, ?_⟩ <;> simp [handleAICommand, hacq, hloop]

/-- Witness for the C6 theorem: round 1 inserts rectangle `r1`, round 2's
write throws, and the handler reports failure while the database still holds
`r1`. -/
theorem ai_no_rollback_when_later_round_fails_witness :
    aiLoop
        (fun n =>
          if n = 0 then
            { text := some "making shapes",
              toolUses := [ToolCall.createShape "rectangle" [("width", "100")] "r1" 5],
              stopReason := "tool_use" }
          else
            { text := none, toolUses := [ToolCall.dbFailure "insert failed"],
              stopReason := "tool_use" })
        "b1" "u1" [] =
      Except.error ("insert failed",
        [{ id := "r1", boardId := "b1", objectType := "rectangle", layerIndex := 0,
           createdBy := "u1", createdAt := 5, attrs := [("width", "100")] }], 2) ∧
    (handleAICommand [] 0 "vA" "b1" "u1"
        (fun n =>
          if n = 0 then
            { text := some "making shapes",
              toolUses := [ToolCall.createShape "rectangle" [("width", "100")] "r1" 5],
              stopReason := "tool_use" }
          else
            { text := none, toolUses := [ToolCall.dbFailure "insert failed"],
              stopReason := "tool_use" })
        (Except.ok ()) []).1 =
      { success := false, message := "insert failed", actions := [] } ∧
    (handleAICommand [] 0 "vA" "b1" "u1"
        (fun n =>
          if n = 0 then
            { text := some "making shapes",
              toolUses := [ToolCall.createShape "rectangle" [("width", "100")] "r1" 5],
              stopReason := "tool_use" }
          else
            { text := none, toolUses := [ToolCall.dbFailure "insert failed"],
              stopReason := "tool_use" })
        (Except.ok ()) []).2.1 =
      [{ id := "r1", boardId := "b1", objectType := "rectangle", layerIndex := 0,
         createdBy := "u1", createdAt := 5, attrs := [("width", "100")] }] :=
  ai_no_rollback_when_later_round_fails [] 0 "vA" "b1" "u1"
    (fun n =>
      if n = 0 then
        { text := some "making shapes",
          toolUses := [ToolCall.createShape "rectangle" [("width", "100")] "r1" 5],
          stopReason := "tool_use" }
      else
        { text := none, toolUses := [ToolCall.dbFailure "insert failed"],
          stopReason := "tool_use" })
    (Except.ok ()) []
    [{ id := "r1", boardId := "b1", objectType := "rectangle", layerIndex := 0,
       createdBy := "u1", createdAt := 5, attrs := [("width", "100")] }]
    [{ id := "r1", boardId := "b1", objectType := "rectangle", layerIndex := 0,
       createdBy := "u1", createdAt := 5, attrs := [("width", "100")] }]
    1 "insert failed" "vA" [(lockKey "b1", { value := "vA", expiry := 30000 })]
    (by decide) (by decide) (by decide) (by decide) rfl (by decide)

/-- C5: `MAX_TOOL_ITERATIONS` is 10, and the tool-calling loop performs at
most that many model invocations for every model behavior, every tool
outcome and every starting database — including when it exits early or a
tool throws. -/
theorem ai_tool_loop_invocations_bounded (oracle : Nat → ModelResponse)
    (boardId userId : String) (db : Db) :
    MAX_TOOL_ITERATIONS = 10 ∧
    callCount (aiLoop oracle boardId userId db) ≤ MAX_TOOL_ITERATIONS :=
  ⟨rfl, aiLoopAux_callCount_le oracle boardId userId MAX_TOOL_ITERATIONS 0 db "" []⟩

end Whiteboard
